import Mathlib

/-!
Verification development for the content-service repository.

This file gives a shallow embedding of the two specified cores of the
service — the per-key token-bucket rate limiter with background eviction
(`internal/shared/middleware`, keyed-registry version) and the request
authorization / ownership model (JWT middleware classification and the
article service's ownership checks) — and proves the specified properties
about them.

Modelling conventions:
* Go `time.Time` / `time.Duration` values are embedded as `Int`
  (nanoseconds); `time.Duration` division (`elapsed / rl.refillRate`)
  is Go's truncated integer division, embedded as `Int.tdiv`.
* The Go `map[string]*rateLimiter` registry is embedded as an association
  list `List (String × RateLimiter)`; pointer mutation of a bucket held in
  the map is embedded as replacing the entry for its key.
* Fallible Go functions returning `(T, error)` are embedded as
  `Except`-valued functions.
-/

namespace ContentService

/-! ## Token bucket (`rateLimiter`, middleware/ratelimit.go keyed version) -/

/-- `RateLimitTokens = 100` — bucket capacity. -/
def RateLimitTokens : Int := 100

/-- `RateLimitRefill = time.Second / 10` — 100ms per token, in nanoseconds. -/
def RateLimitRefill : Int := 100000000

/-- `CleanupInterval = 10 * time.Minute`, in nanoseconds. -/
def CleanupInterval : Int := 600000000000

/-- `LimiterTTL = 30 * time.Minute`, in nanoseconds. -/
def LimiterTTL : Int := 1800000000000

/-- The `rateLimiter` struct: token count, capacity, per-token refill
interval, last-refill and last-access timestamps.  The mutex is a
concurrency artifact with no sequential content and is not embedded. -/
structure RateLimiter where
  tokens : Int
  maxTokens : Int
  refillRate : Int
  lastRefillTime : Int
  lastAccessTime : Int
deriving Repr, DecidableEq

/-- `newRateLimiter(maxTokens, refillRate)`: a fresh bucket, full, with both
timestamps set to the creation instant `now`. -/
def newRateLimiter (maxTokens refillRate now : Int) : RateLimiter :=
  { tokens := maxTokens
    maxTokens := maxTokens
    refillRate := refillRate
    lastRefillTime := now
    lastAccessTime := now }

/-- `rateLimiter.allow()`: refreshes the last-access time, adds
`elapsed / refillRate` tokens (capped at capacity) and advances the
last-refill time only when at least one token was added, then consumes a
token if one is available.  Returns the allow/deny outcome and the updated
bucket; the wall-clock reading `now` is passed explicitly. -/
def RateLimiter.allow (rl : RateLimiter) (now : Int) : Bool × RateLimiter :=
  let rl1 := { rl with lastAccessTime := now }
  let elapsed := now - rl1.lastRefillTime
  let tokensToAdd := elapsed.tdiv rl1.refillRate
  let rl2 :=
    if tokensToAdd > 0 then
      { rl1 with
        tokens := min rl1.maxTokens (rl1.tokens + tokensToAdd)
        lastRefillTime := now }
    else rl1
  if rl2.tokens > 0 then
    (true, { rl2 with tokens := rl2.tokens - 1 })
  else
    (false, rl2)

/-- The bucket state after `n` consecutive `allow()` calls, all observing
the same clock reading `now`. -/
def allowN (rl : RateLimiter) (now : Int) : Nat → RateLimiter
  | 0 => rl
  | n + 1 => ((allowN rl now n).allow now).2

/-! ## Reachable bucket states (C7) -/

/-- Bucket states reachable from a fresh capacity-`C` bucket created at
time `t0` by `allow()` calls with non-decreasing clock readings; the
second component records the clock reading at which the state was last
observed. -/
inductive Reached (C r t0 : Int) : RateLimiter → Int → Prop
  | init : Reached C r t0 (newRateLimiter C r t0) t0
  | step {rl : RateLimiter} {t now : Int} :
      Reached C r t0 rl t → t ≤ now → Reached C r t0 (rl.allow now).2 now

/-! ## Limiter registry (`rateLimiterStore`) -/

/-- The registry's `map[string]*rateLimiter`, embedded as an association
list from client key to bucket state. -/
abbrev Store : Type := List (String × RateLimiter)

/-- `rateLimiterStore.getLimiter(ip)`: return the existing bucket for
`ip`, or create a fresh one (capacity `RateLimitTokens`, interval
`RateLimitRefill`) and insert it.  Returns the bucket and the updated
registry; `now` is the wall clock at creation time. -/
def getLimiter (s : Store) (ip : String) (now : Int) : RateLimiter × Store :=
  match List.lookup ip s with
  | some limiter => (limiter, s)
  | none =>
      let limiter := newRateLimiter RateLimitTokens RateLimitRefill now
      (limiter, (ip, limiter) :: s)

/-- One pass of the `cleanup` loop body at wall clock `now`: every entry
whose last-access time is more than `LimiterTTL` in the past is deleted;
all others are kept. -/
def cleanupPass (s : Store) (now : Int) : Store :=
  s.filter (fun p => ¬ now - p.2.lastAccessTime > LimiterTTL)

/-- `RateLimitMiddleware`'s per-request work: fetch (or create) the bucket
for the client key, run `allow()` on it, and store the mutated bucket
back under its key (the Go code mutates the bucket through the map's
pointer).  Returns the allow/deny outcome and the updated registry. -/
def rateLimitRequest (s : Store) (ip : String) (now : Int) : Bool × Store :=
  let (limiter, s1) := getLimiter s ip now
  let (ok, limiter1) := limiter.allow now
  (ok, s1.map (fun p => if p.1 = ip then (ip, limiter1) else p))

/-- The registry after a sequence of requests under key `ip` at the given
clock readings. -/
def runSeq (s : Store) (ip : String) : List Int → Store
  | [] => s
  | t :: ts => runSeq (rateLimitRequest s ip t).2 ip ts

/-! ## Authentication gate (`JWTAuthMiddleware`, middleware/auth.go) -/

/-- Go's `strings.Split` with a one-character separator, over the
character list of the string: every occurrence of the separator cuts;
consecutive separators yield empty pieces; the empty input yields one
empty piece. -/
def splitChars (sep : Char) : List Char → List (List Char)
  | [] => [[]]
  | c :: cs =>
      match splitChars sep cs with
      | r :: rs => if c = sep then [] :: r :: rs else (c :: r) :: rs
      | [] => if c = sep then [[], []] else [[c]]

/-- `strings.Split(s, sep)` for a one-character separator, as strings. -/
def stringsSplit (s : String) (sep : Char) : List String :=
  (splitChars sep s.data).map String.mk

/-- The classified outcomes of `JWTAuthMiddleware`, one per early-return
branch (each a distinct 401 body), plus the success case in which the
`user_id` claim is attached to the request context. -/
inductive AuthOutcome
  | missingHeader
  | malformedHeader
  | invalidToken
  | missingPrincipal
  | success (userID : Nat)
deriving Repr, DecidableEq

/-- `JWTAuthMiddleware`'s request-time classification of a raw
`Authorization` header value.  JWT verification
(`jwt.ParseWithClaims` with the HMAC-method check and the configured
secret) is the external library collaborator, abstracted as `verify`:
`none` on any verification failure, otherwise the decoded numeric
`user_id` claim — Go decodes an absent `user_id` field to the zero value
`0`. -/
def jwtAuthMiddleware (verify : String → Option Nat) (authHeader : String) : AuthOutcome :=
  if authHeader = "" then .missingHeader
  else
    match stringsSplit authHeader ' ' with
    | [scheme, tokenString] =>
        if scheme = "Bearer" then
          match verify tokenString with
          | none => .invalidToken
          | some userID => if userID = 0 then .missingPrincipal else .success userID
        else .malformedHeader
    | _ => .malformedHeader

/-- The parse condition of `JWTAuthMiddleware`:
`len(parts) == 2 && parts[0] == "Bearer"`. -/
def headerWellFormed (authHeader : String) : Bool :=
  match stringsSplit authHeader ' ' with
  | [scheme, _] => scheme = "Bearer"
  | _ => false

/-! ## Article service (`articleService`, internal/article) -/

/-- The title length limit checked by the service (`MaxTitleLength`; the
`varchar(255)` column of `Article.Title` and the handler's `max=255`
validator fix it at 255).  Go's `len` on a string counts bytes. -/
def MaxTitleLength : Nat := 255

/-- The `Article` record (GORM soft-delete bookkeeping aside): numeric id,
title, content, owning user id, timestamps. -/
structure Article where
  id : Nat
  title : String
  content : String
  userID : Nat
  createdAt : Int
  updatedAt : Int
deriving Repr, DecidableEq

/-- The service's error taxonomy: `ErrNotFound`, `ErrForbidden`,
`ErrValidation` (with the wrapped message) and `ErrInternal` (with the
wrapped message). -/
inductive ServiceError
  | notFound
  | forbidden
  | validation (msg : String)
  | internal (msg : String)
deriving Repr, DecidableEq

/-- The `updates map[string]interface{}` built by `UpdateArticle`: at most
one `"title"` and one `"content"` entry. -/
structure Updates where
  title : Option String
  content : Option String
deriving Repr, DecidableEq

/-- `len(updates)`: the number of keys present in the updates map. -/
def Updates.size (u : Updates) : Nat :=
  (if u.title.isSome then 1 else 0) + (if u.content.isSome then 1 else 0)

/-- A write issued to the repository by the service. -/
inductive RepoWrite
  | update (id : Nat) (updates : Updates)
  | delete (id : Nat)
deriving Repr, DecidableEq

/-- The repository state, embedded with the semantics of the in-memory
`mockRepository` of `service_test.go` (the production GORM repository has
the same value semantics at this interface: `GetByID` returns a copy of
the stored record, or a not-found signal). -/
structure MockRepository where
  articles : List (Nat × Article)
  nextID : Nat
deriving Repr, DecidableEq

/-- `mockRepository.GetByID`: look the article up, `ErrNotFound` when
absent. -/
def MockRepository.getByID (m : MockRepository) (id : Nat) :
    Except ServiceError Article :=
  match List.lookup id m.articles with
  | none => Except.error ServiceError.notFound
  | some a => Except.ok a

/-- `mockRepository.Update`: apply the `"title"` and `"content"` entries
of the updates map to the stored article; `ErrNotFound` when absent. -/
def MockRepository.update (m : MockRepository) (id : Nat) (u : Updates) :
    Except ServiceError MockRepository :=
  match List.lookup id m.articles with
  | none => Except.error ServiceError.notFound
  | some a =>
      let a1 := match u.title with
        | some t => { a with title := t }
        | none => a
      let a2 := match u.content with
        | some c => { a1 with content := c }
        | none => a1
      Except.ok { m with
        articles := m.articles.map (fun p => if p.1 = id then (id, a2) else p) }

/-- `mockRepository.Delete`: remove the stored article; `ErrNotFound` when
absent. -/
def MockRepository.delete (m : MockRepository) (id : Nat) :
    Except ServiceError MockRepository :=
  match List.lookup id m.articles with
  | none => Except.error ServiceError.notFound
  | some _ =>
      Except.ok { m with articles := m.articles.filter (fun p => ¬ p.1 = id) }

/-- `articleService.UpdateArticle(userID, id, title, content)`: load the
article, reject non-owners with `ErrForbidden`, validate the optional
title (non-empty, at most `MaxTitleLength` bytes) and content
(non-empty) while building the updates map and the returned copy, reject
an empty updates map, then issue the repository `Update`.  Returns the
service result, the repository state afterwards, and the list of
repository writes issued. -/
def UpdateArticle (repo : MockRepository) (userID id : Nat)
    (title content : Option String) :
    Except ServiceError Article × MockRepository × List RepoWrite :=
  match repo.getByID id with
  | Except.error e => (Except.error e, repo, [])
  | Except.ok article0 =>
    if article0.userID ≠ userID then (Except.error ServiceError.forbidden, repo, [])
    else
      let step1 : Except ServiceError (Updates × Article) :=
        match title with
        | none => Except.ok ({ title := none, content := none }, article0)
        | some t =>
          if t = "" then Except.error (ServiceError.validation "title cannot be empty")
          else if t.utf8ByteSize > MaxTitleLength then
            Except.error (ServiceError.validation "title cannot exceed 255 characters")
          else Except.ok ({ title := some t, content := none }, { article0 with title := t })
      match step1 with
      | Except.error e => (Except.error e, repo, [])
      | Except.ok (u1, article1) =>
        let step2 : Except ServiceError (Updates × Article) :=
          match content with
          | none => Except.ok (u1, article1)
          | some c =>
            if c = "" then Except.error (ServiceError.validation "content cannot be empty")
            else Except.ok ({ u1 with content := some c }, { article1 with content := c })
        match step2 with
        | Except.error e => (Except.error e, repo, [])
        | Except.ok (u2, article2) =>
          if u2.size = 0 then
            (Except.error (ServiceError.validation "no fields to update"), repo, [])
          else
            match repo.update id u2 with
            | Except.error _ =>
                (Except.error (ServiceError.internal "failed to update article"), repo,
                 [RepoWrite.update id u2])
            | Except.ok repo1 => (Except.ok article2, repo1, [RepoWrite.update id u2])

/-- `articleService.DeleteArticle(userID, id)`: load the article, reject
non-owners with `ErrForbidden`, then issue the repository `Delete`. -/
def DeleteArticle (repo : MockRepository) (userID id : Nat) :
    Except ServiceError Unit × MockRepository × List RepoWrite :=
  match repo.getByID id with
  | Except.error e => (Except.error e, repo, [])
  | Except.ok article =>
    if article.userID ≠ userID then (Except.error ServiceError.forbidden, repo, [])
    else
      match repo.delete id with
      | Except.error _ =>
          (Except.error (ServiceError.internal "failed to delete article"), repo,
           [RepoWrite.delete id])
      | Except.ok repo1 => (Except.ok (), repo1, [RepoWrite.delete id])

/-! ## Theorems: token bucket -/

/-- With no time elapsing, `n ≤ C` calls on a fresh capacity-`C` bucket
leave `C - n` tokens and move no timestamp. -/
theorem allowN_fresh_same_time (C : Nat) (r t : Int) (n : Nat) (hn : n ≤ C) :
    allowN (newRateLimiter (C : Int) r t) t n =
      { tokens := (C : Int) - n
        maxTokens := (C : Int)
        refillRate := r
        lastRefillTime := t
        lastAccessTime := t } := by
  induction n with
  | zero => simp [allowN, newRateLimiter]
  | succ n ih =>
    have hn' : n ≤ C := Nat.le_of_succ_le hn
    rw [allowN, ih hn']
    have hsub : t - t = 0 := by ring
    have hpos : (0 : Int) < (C : Int) - n := by
      have : (n : Int) < (C : Int) := by exact_mod_cast hn
      omega
    simp only [RateLimiter.allow, hsub, Int.zero_tdiv]
    norm_num [hpos.ne']
    have hlt : n < C := hn
    simp only [hlt, if_true]
    congr 1
    ring

/-- **C2.** Burst behaviour: on a fresh bucket of capacity `C`, with no time
elapsing between calls, each of the first `C` `allow()` calls returns
allowed and the `(C+1)`-th returns denied; the middleware's capacity
constant is 100 and a fresh bucket starts full. -/
theorem burst_first_C_allowed_then_denied (C : Nat) (r t : Int) :
    (newRateLimiter (C : Int) r t).tokens = (newRateLimiter (C : Int) r t).maxTokens ∧
    RateLimitTokens = 100 ∧
    (∀ i, i < C → ((allowN (newRateLimiter (C : Int) r t) t i).allow t).1 = true) ∧
    ((allowN (newRateLimiter (C : Int) r t) t C).allow t).1 = false := by
  refine ⟨rfl, rfl, ?_, ?_⟩
  · intro i hi
    rw [allowN_fresh_same_time C r t i (Nat.le_of_lt hi)]
    have hpos : (0 : Int) < (C : Int) - i := by
      have : (i : Int) < (C : Int) := by exact_mod_cast hi
      omega
    simp only [RateLimiter.allow, sub_self, Int.zero_tdiv]
    norm_num [hpos]
  · rw [allowN_fresh_same_time C r t C (Nat.le_refl C)]
    simp [RateLimiter.allow]

/-- **C2 witness.** The burst theorem evaluated on a concrete capacity-3
bucket: the 2nd call (index 1) is allowed and the 4th is denied. -/
theorem burst_first_C_allowed_then_denied_witness :
    ((allowN (newRateLimiter (3 : Int) 100 0) 0 1).allow 0).1 = true ∧
    ((allowN (newRateLimiter (3 : Int) 100 0) 0 3).allow 0).1 = false :=
  ⟨(burst_first_C_allowed_then_denied 3 100 0).2.2.1 1 (by decide),
   (burst_first_C_allowed_then_denied 3 100 0).2.2.2⟩

/-- **C3 counterexample.** The leftover sub-interval time is *not*
preserved when a refill happens.  Bucket: capacity 1, interval 100.  The
call at time 0 empties it; the call at time 150 adds one token
(elapsed 150, quotient 1) but resets `lastRefillTime` to 150 rather than
to 0 + 1·100 = 100, discarding the 50-unit remainder; consequently the
call at time 200 is denied, although under remainder preservation a full
interval (200 − 100) would have elapsed. -/
theorem refill_leftover_not_preserved :
    (((newRateLimiter 1 100 0).allow 0).2.allow 150).2.lastRefillTime = 150 ∧
    (150 - ((newRateLimiter 1 100 0).allow 0).2.lastRefillTime) % 100 = 50 ∧
    (((newRateLimiter 1 100 0).allow 0).2.allow 150).2.lastRefillTime ≠ 100 ∧
    ((((newRateLimiter 1 100 0).allow 0).2.allow 150).2.allow 200).1 = false := by
  decide

/-- **C3 (amended).** Refill policy on each `allow(now)` call: the tokens
added are the integer quotient of elapsed time over the per-token
interval, capped at capacity; `lastRefillTime` advances only when at least
one token was added; when no token is added the elapsed time keeps
accruing for the next call, but when tokens are added the timestamp is
reset to `now`, discarding the sub-interval remainder `elapsed % interval`. -/
theorem refill_policy (rl : RateLimiter) (now : Int) :
    ((now - rl.lastRefillTime).tdiv rl.refillRate > 0 →
      (rl.allow now).2.tokens + (if min rl.maxTokens (rl.tokens + (now - rl.lastRefillTime).tdiv rl.refillRate) > 0 then 1 else 0) =
        min rl.maxTokens (rl.tokens + (now - rl.lastRefillTime).tdiv rl.refillRate) ∧
      (rl.allow now).2.lastRefillTime = now) ∧
    (¬ (now - rl.lastRefillTime).tdiv rl.refillRate > 0 →
      (rl.allow now).2.tokens + (if rl.tokens > 0 then 1 else 0) = rl.tokens ∧
      (rl.allow now).2.lastRefillTime = rl.lastRefillTime) := by
  simp only [RateLimiter.allow]
  constructor
  · intro hadd
    simp only [if_pos hadd]
    split_ifs with h <;> simp [h]
  · intro hadd
    simp only [if_neg hadd]
    split_ifs with h <;> simp [h]

/-- **C3 witness.** The refill policy evaluated at a concrete bucket:
after the counterexample trace's refill at time 150 the timestamp is 150,
and a no-refill call leaves the timestamp alone. -/
theorem refill_policy_witness :
    ((((newRateLimiter 1 100 0).allow 0).2.allow 150).2.lastRefillTime = 150) ∧
    ((((newRateLimiter 1 100 0).allow 0).2.allow 50).2.lastRefillTime = 0) :=
  ⟨((refill_policy ((newRateLimiter 1 100 0).allow 0).2 150).1 (by decide)).2,
   ((refill_policy ((newRateLimiter 1 100 0).allow 0).2 50).2 (by decide)).2⟩

/-- One `allow()` call preserves the token-count bounds and moves the
last-refill timestamp forward only, never past `now`. -/
theorem allow_preserves_invariant (rl : RateLimiter) (now : Int)
    (h0 : 0 ≤ rl.tokens) (h1 : rl.tokens ≤ rl.maxTokens)
    (hlr : rl.lastRefillTime ≤ now) :
    0 ≤ (rl.allow now).2.tokens ∧
    (rl.allow now).2.tokens ≤ (rl.allow now).2.maxTokens ∧
    (rl.allow now).2.maxTokens = rl.maxTokens ∧
    rl.lastRefillTime ≤ (rl.allow now).2.lastRefillTime ∧
    (rl.allow now).2.lastRefillTime ≤ now := by
  simp only [RateLimiter.allow]
  split_ifs with hadd hpos hpos <;> simp_all <;> omega

/-- **C7.** Token-count invariant: every bucket state reachable from the
initial full bucket by `allow()` calls with non-decreasing clock readings
keeps `0 ≤ tokens ≤ capacity`, its last-refill timestamp never exceeds
the current clock, and a further `allow()` call never moves the
last-refill timestamp backwards. -/
theorem bucket_invariant (C r t0 : Int) (rl : RateLimiter) (t : Int)
    (hC : 0 ≤ C) (h : Reached C r t0 rl t) :
    (0 ≤ rl.tokens ∧ rl.tokens ≤ rl.maxTokens ∧ rl.maxTokens = C) ∧
    rl.lastRefillTime ≤ t ∧
    (∀ now, t ≤ now → rl.lastRefillTime ≤ (rl.allow now).2.lastRefillTime) := by
  induction h with
  | init =>
    refine ⟨⟨hC, le_refl _, rfl⟩, le_refl _, ?_⟩
    intro now hnow
    exact (allow_preserves_invariant _ now hC (le_refl _) hnow).2.2.2.1
  | step hreach hle ih =>
    obtain ⟨⟨i0, i1, i2⟩, ilr, _⟩ := ih
    have hstep := allow_preserves_invariant _ _ i0 i1 (le_trans ilr hle)
    refine ⟨⟨hstep.1, hstep.2.1, i2 ▸ hstep.2.2.1⟩, hstep.2.2.2.2, ?_⟩
    intro now hnow
    exact (allow_preserves_invariant _ now hstep.1 hstep.2.1
      (le_trans hstep.2.2.2.2 hnow)).2.2.2.1

/-- **C7 witness.** The invariant evaluated on the initial capacity-100
bucket at time 0, with the no-backwards-refill conclusion instantiated at
clock reading 5. -/
theorem bucket_invariant_witness :
    0 ≤ (newRateLimiter 100 100000000 0).tokens ∧
    (newRateLimiter 100 100000000 0).tokens ≤ (newRateLimiter 100 100000000 0).maxTokens ∧
    (newRateLimiter 100 100000000 0).lastRefillTime ≤
      ((newRateLimiter 100 100000000 0).allow 5).2.lastRefillTime := by
  have h := bucket_invariant 100 100000000 0 (newRateLimiter 100 100000000 0) 0
    (by decide) Reached.init
  exact ⟨h.1.1, h.1.2.1, h.2.2 5 (by decide)⟩

/-! ## Theorems: limiter registry -/

/-- **C6.** Eviction sweep correctness: after one sweep pass at clock
`now`, an entry whose last access is more than `LimiterTTL` in the past
is absent, and an entry whose last access is within the TTL is still
present — the sweep never deletes a bucket accessed within the TTL
window. -/
theorem cleanup_sweep_correct (s : Store) (now : Int) (ip : String) (rl : RateLimiter)
    (hmem : (ip, rl) ∈ s) :
    (now - rl.lastAccessTime > LimiterTTL → (ip, rl) ∉ cleanupPass s now) ∧
    (¬ now - rl.lastAccessTime > LimiterTTL → (ip, rl) ∈ cleanupPass s now) := by
  constructor
  · intro hold hmem'
    have := (List.mem_filter.mp hmem').2
    simp only [decide_eq_true_eq] at this
    exact this hold
  · intro hfresh
    exact List.mem_filter.mpr ⟨hmem, by simp only [decide_eq_true_eq]; exact hfresh⟩

/-- **C6 witness.** A two-entry registry swept at time `LimiterTTL + 10`:
the bucket created at time 0 (last access 0, idle for more than the TTL)
is gone, the bucket last accessed at time 20 survives. -/
theorem cleanup_sweep_correct_witness :
    (("a", newRateLimiter 100 100000000 0) ∉
      cleanupPass [("a", newRateLimiter 100 100000000 0),
                   ("b", newRateLimiter 100 100000000 20)] (LimiterTTL + 10)) ∧
    (("b", newRateLimiter 100 100000000 20) ∈
      cleanupPass [("a", newRateLimiter 100 100000000 0),
                   ("b", newRateLimiter 100 100000000 20)] (LimiterTTL + 10)) :=
  ⟨(cleanup_sweep_correct _ _ "a" _ (by simp)).1 (by decide),
   (cleanup_sweep_correct _ _ "b" _ (by simp)).2 (by decide)⟩

/-- A key that `List.lookup` misses heads no entry of the list. -/
theorem lookup_none_not_key (k : String) (s : Store)
    (h : List.lookup k s = none) : k ∉ s.map Prod.fst := by
  induction s with
  | nil => simp
  | cons p s ih =>
    obtain ⟨k', v⟩ := p
    by_cases hk : k = k'
    · subst hk
      simp [List.lookup_cons] at h
    · simp only [List.lookup_cons, beq_false_of_ne hk] at h
      simpa [hk] using ih h

/-- **C8.** `getLimiter` is idempotent per key: a second call for the same
key returns the very bucket the first call returned and leaves the
registry unchanged; a call for a key that already has a bucket returns
that bucket without replacing it; entries for all other keys are
untouched; and key uniqueness (at most one bucket per key) is preserved. -/
theorem getLimiter_idempotent (s : Store) (ip : String) (now now2 : Int) :
    (getLimiter (getLimiter s ip now).2 ip now2).1 = (getLimiter s ip now).1 ∧
    (getLimiter (getLimiter s ip now).2 ip now2).2 = (getLimiter s ip now).2 ∧
    (∀ l, List.lookup ip s = some l → getLimiter s ip now = (l, s)) ∧
    (∀ k, k ≠ ip → List.lookup k (getLimiter s ip now).2 = List.lookup k s) ∧
    ((s.map Prod.fst).Nodup → ((getLimiter s ip now).2.map Prod.fst).Nodup) := by
  cases h : List.lookup ip s with
  | some l =>
    refine ⟨?_, ?_, ?_, ?_, ?_⟩ <;> simp [getLimiter, h]
  | none =>
    have hcons : List.lookup ip
        ((ip, newRateLimiter RateLimitTokens RateLimitRefill now) :: s) =
        some (newRateLimiter RateLimitTokens RateLimitRefill now) := by
      simp [List.lookup_cons]
    refine ⟨?_, ?_, ?_, ?_, ?_⟩
    · simp [getLimiter, h, hcons]
    · simp [getLimiter, h, hcons]
    · intro l hl
      exact Option.noConfusion hl
    · intro k hk
      simp [getLimiter, h, List.lookup_cons, beq_false_of_ne hk]
    · intro hnodup
      simp only [getLimiter, h, List.map_cons, List.nodup_cons]
      exact ⟨lookup_none_not_key ip s h, hnodup⟩

/-- **C8 witness.** On a concrete one-entry registry: a repeated call for
key `"a"` returns the same bucket and registry, the pre-existing `"a"`
bucket is returned unreplaced, and key `"b"` is unaffected. -/
theorem getLimiter_idempotent_witness :
    (getLimiter (getLimiter [("a", newRateLimiter 100 100000000 0)] "a" 7).2 "a" 9).2 =
      (getLimiter [("a", newRateLimiter 100 100000000 0)] "a" 7).2 ∧
    getLimiter [("a", newRateLimiter 100 100000000 0)] "a" 7 =
      (newRateLimiter 100 100000000 0, [("a", newRateLimiter 100 100000000 0)]) ∧
    List.lookup "b" (getLimiter [("a", newRateLimiter 100 100000000 0)] "a" 7).2 =
      List.lookup "b" [("a", newRateLimiter 100 100000000 0)] := by
  have h := getLimiter_idempotent [("a", newRateLimiter 100 100000000 0)] "a" 7 9
  exact ⟨h.2.1, h.2.2.1 _ (by simp [List.lookup_cons]), h.2.2.2.1 "b" (by decide)⟩

/-- Writing a bucket back under key `ip` leaves the lookup of any other
key unchanged. -/
theorem lookup_map_update (k ip : String) (rl : RateLimiter) (s : Store) (hk : k ≠ ip) :
    List.lookup k (s.map (fun p => if p.1 = ip then (ip, rl) else p)) =
      List.lookup k s := by
  induction s with
  | nil => simp
  | cons p s ih =>
    obtain ⟨k', v⟩ := p
    by_cases h' : k' = ip
    · subst h'
      simp [List.lookup_cons, beq_false_of_ne hk, ih]
    · simp only [List.map_cons, if_neg h', List.lookup_cons]
      by_cases hkk : k = k'
      · simp [hkk]
      · simp [beq_false_of_ne hkk, ih]

/-- A rate-limited request under key `ip` leaves the lookup of any other
key unchanged. -/
theorem rateLimitRequest_other_key (s : Store) (ip k : String) (t : Int) (hk : k ≠ ip) :
    List.lookup k (rateLimitRequest s ip t).2 = List.lookup k s := by
  simp only [rateLimitRequest, getLimiter]
  cases h : List.lookup ip s with
  | some l =>
    simpa using lookup_map_update k ip (l.allow t).2 s hk
  | none =>
    simp [List.lookup_cons, beq_false_of_ne hk, lookup_map_update k ip _ s hk]

/-- A whole sequence of requests under key `ip` leaves the lookup of any
other key unchanged. -/
theorem runSeq_other_key (s : Store) (ip k : String) (ts : List Int) (hk : k ≠ ip) :
    List.lookup k (runSeq s ip ts) = List.lookup k s := by
  induction ts generalizing s with
  | nil => rfl
  | cons t ts ih =>
    rw [runSeq, ih]
    exact rateLimitRequest_other_key s ip k t hk

/-- The allow/deny outcome of a request depends only on the bucket stored
under the request's own key. -/
theorem rateLimitRequest_fst (s : Store) (k : String) (t : Int) :
    (rateLimitRequest s k t).1 =
      ((match List.lookup k s with
        | some l => l
        | none => newRateLimiter RateLimitTokens RateLimitRefill t).allow t).1 := by
  simp only [rateLimitRequest, getLimiter]
  cases List.lookup k s <;> rfl

/-- **C9.** Key isolation: for distinct keys `k1 ≠ k2`, any sequence of
requests under `k1` (exhausting its bucket included) leaves `k2`'s bucket
unchanged, leaves the outcome of a subsequent `k2` request exactly what
it would have been without the `k1` traffic, and a first-ever `k2`
request is still allowed. -/
theorem key_isolation (s : Store) (k1 k2 : String) (ts : List Int) (t : Int)
    (hne : k1 ≠ k2) :
    List.lookup k2 (runSeq s k1 ts) = List.lookup k2 s ∧
    (rateLimitRequest (runSeq s k1 ts) k2 t).1 = (rateLimitRequest s k2 t).1 ∧
    (List.lookup k2 s = none → (rateLimitRequest (runSeq s k1 ts) k2 t).1 = true) := by
  have hlk := runSeq_other_key s k1 k2 ts (Ne.symm hne)
  refine ⟨hlk, ?_, ?_⟩
  · rw [rateLimitRequest_fst, rateLimitRequest_fst, hlk]
  · intro hnone
    rw [rateLimitRequest_fst, hlk, hnone]
    simp [RateLimiter.allow, newRateLimiter, RateLimitTokens]

/-- **C9 witness.** Exhausting key `"a"` with 101 instantaneous requests
on an empty registry leaves `"b"` absent from the registry and a first
request under `"b"` allowed. -/
theorem key_isolation_witness :
    List.lookup "b" (runSeq [] "a" (List.replicate 101 0)) = List.lookup "b" [] ∧
    (rateLimitRequest (runSeq [] "a" (List.replicate 101 0)) "b" 0).1 = true := by
  have h := key_isolation [] "a" "b" (List.replicate 101 0) 0 (by decide)
  exact ⟨h.1, h.2.2 rfl⟩

/-! ## Theorems: authentication gate -/

/-- **C4 counterexample.** The empty header value is not classified as a
malformed header: it takes the dedicated missing-header early return
("authorization header is required"), a distinct classification, even
though it fails the two-token `Bearer` shape. -/
theorem empty_header_not_malformed :
    jwtAuthMiddleware (fun _ => none) "" = AuthOutcome.missingHeader ∧
    AuthOutcome.missingHeader ≠ AuthOutcome.malformedHeader ∧
    headerWellFormed "" = false := by
  decide

/-- **C4 (amended).** Header classification: the empty header fails with
the missing-header classification; every other header that does not split
into exactly two space-separated tokens with first token `"Bearer"`
fails with the malformed-header classification; in either failure the
outcome is independent of the verifier, so no verification is attempted;
and when the header has the `Bearer` shape the outcome is obtained by
verifying the second token. -/
theorem auth_header_classification (verify verify2 : String → Option Nat) (h : String) :
    (h = "" → jwtAuthMiddleware verify h = AuthOutcome.missingHeader) ∧
    (h ≠ "" → headerWellFormed h = false →
      jwtAuthMiddleware verify h = AuthOutcome.malformedHeader) ∧
    (headerWellFormed h = false →
      jwtAuthMiddleware verify h = jwtAuthMiddleware verify2 h) ∧
    (∀ tok, stringsSplit h ' ' = ["Bearer", tok] → h ≠ "" →
      jwtAuthMiddleware verify h =
        (match verify tok with
         | none => AuthOutcome.invalidToken
         | some userID =>
             if userID = 0 then AuthOutcome.missingPrincipal
             else AuthOutcome.success userID)) := by
  refine ⟨?_, ?_, ?_, ?_⟩
  · intro he
    simp [jwtAuthMiddleware, he]
  · intro hne hwf
    simp only [jwtAuthMiddleware, if_neg hne]
    simp only [headerWellFormed] at hwf
    cases hs : stringsSplit h ' ' with
    | nil => rfl
    | cons a l =>
      cases l with
      | nil => rfl
      | cons b l2 =>
        cases l2 with
        | nil =>
          rw [hs] at hwf
          simp only [decide_eq_false_iff_not] at hwf
          simp [hwf]
        | cons c l3 => rfl
  · intro hwf
    simp only [headerWellFormed] at hwf
    simp only [jwtAuthMiddleware]
    cases hs : stringsSplit h ' ' with
    | nil => rfl
    | cons a l =>
      cases l with
      | nil => rfl
      | cons b l2 =>
        cases l2 with
        | nil =>
          rw [hs] at hwf
          simp only [decide_eq_false_iff_not] at hwf
          simp [hwf]
        | cons c l3 => rfl
  · intro tok hsplit hne
    simp [jwtAuthMiddleware, hne, hsplit]

/-- **C4 witness.** The classification applied to the concrete header
`"Basic xyz"` (malformed, verifier-independent) and to the missing-header
case. -/
theorem auth_header_classification_witness :
    jwtAuthMiddleware (fun _ => some 7) "Basic xyz" = AuthOutcome.malformedHeader ∧
    jwtAuthMiddleware (fun _ => some 7) "" = AuthOutcome.missingHeader :=
  ⟨(auth_header_classification (fun _ => some 7) (fun _ => none) "Basic xyz").2.1
      (by decide) (by decide),
   (auth_header_classification (fun _ => some 7) (fun _ => none) "").1 rfl⟩

/-- **C5.** Zero-principal rejection: for a `Bearer`-shaped header whose
token verifies, a zero (or absent, decoded as zero) `user_id` claim is
rejected with the missing-principal classification, and a non-zero
`user_id` is attached to the request context as the success outcome. -/
theorem zero_principal_rejected (verify : String → Option Nat) (h tok : String) (uid : Nat)
    (hsplit : stringsSplit h ' ' = ["Bearer", tok]) (hv : verify tok = some uid) :
    (uid = 0 → jwtAuthMiddleware verify h = AuthOutcome.missingPrincipal) ∧
    (uid ≠ 0 → jwtAuthMiddleware verify h = AuthOutcome.success uid) := by
  have hne : h ≠ "" := by
    intro he
    subst he
    rw [show stringsSplit "" ' ' = [""] from rfl] at hsplit
    injection hsplit with h1 _
    exact absurd h1 (by decide)
  constructor
  · intro h0
    simp [jwtAuthMiddleware, hne, hsplit, hv, h0]
  · intro h0
    simp [jwtAuthMiddleware, hne, hsplit, hv, h0]

/-- **C5 witness.** A verifier accepting `"t0"` with `user_id` 0 and
`"t1"` with `user_id` 123: the first is rejected as missing principal,
the second succeeds as principal 123. -/
theorem zero_principal_rejected_witness :
    jwtAuthMiddleware (fun s => if s = "t0" then some 0 else some 123) "Bearer t0" =
      AuthOutcome.missingPrincipal ∧
    jwtAuthMiddleware (fun s => if s = "t0" then some 0 else some 123) "Bearer t1" =
      AuthOutcome.success 123 :=
  ⟨(zero_principal_rejected _ "Bearer t0" "t0" 0 (by decide) (by decide)).1 rfl,
   (zero_principal_rejected _ "Bearer t1" "t1" 123 (by decide) (by decide)).2 (by decide)⟩

/-! ## Theorems: article service -/

/-- With the article present and owned by another principal, both
mutations return `ErrForbidden` and change nothing. -/
theorem update_delete_forbidden_of_mismatch (repo : MockRepository) (userID id : Nat)
    (title content : Option String) (a : Article)
    (hlk : List.lookup id repo.articles = some a) (h : a.userID ≠ userID) :
    UpdateArticle repo userID id title content =
      (Except.error ServiceError.forbidden, repo, []) ∧
    DeleteArticle repo userID id = (Except.error ServiceError.forbidden, repo, []) := by
  constructor
  · simp [UpdateArticle, MockRepository.getByID, hlk, h]
  · simp [DeleteArticle, MockRepository.getByID, hlk, h]

/-- With the article present and owned by the caller, `UpdateArticle`
never returns `ErrForbidden`. -/
theorem UpdateArticle_not_forbidden_of_owner (repo : MockRepository) (userID id : Nat)
    (title content : Option String) (a : Article)
    (hlk : List.lookup id repo.articles = some a) (h : a.userID = userID) :
    (UpdateArticle repo userID id title content).1 ≠
      Except.error ServiceError.forbidden := by
  have h' : ¬ a.userID ≠ userID := by simp [h]
  simp only [UpdateArticle, MockRepository.getByID, hlk, if_neg h']
  rcases title with _ | t
  · rcases content with _ | c
    · simp [Updates.size]
    · by_cases hc : c = ""
      · simp [hc]
      · simp only [if_neg hc, Updates.size]
        norm_num
        split <;> simp
  · by_cases ht : t = ""
    · simp [ht]
    · by_cases htl : t.utf8ByteSize > MaxTitleLength
      · simp [ht, htl]
      · rcases content with _ | c
        · simp only [if_neg ht, if_neg htl, Updates.size]
          norm_num
          split <;> simp
        · by_cases hc : c = ""
          · simp [ht, htl, hc]
          · simp only [if_neg ht, if_neg htl, if_neg hc, Updates.size]
            norm_num
            split <;> simp

/-- With the article present and owned by the caller, `DeleteArticle`
succeeds. -/
theorem DeleteArticle_ok_of_owner (repo : MockRepository) (userID id : Nat)
    (a : Article) (hlk : List.lookup id repo.articles = some a) (h : a.userID = userID) :
    (DeleteArticle repo userID id).1 = Except.ok () := by
  have h' : ¬ a.userID ≠ userID := by simp [h]
  simp [DeleteArticle, MockRepository.getByID, MockRepository.delete, hlk, if_neg h']

/-- **C1.** Ownership authorization: with the article loaded, an update or
delete fails with `ErrForbidden` exactly when the article's owner differs
from the authenticated principal (in particular never with `ErrNotFound`
in that case), and an owner's delete is allowed; there is no role
hierarchy or admin override. -/
theorem ownership_check (repo : MockRepository) (userID id : Nat)
    (title content : Option String) (a : Article)
    (hlk : List.lookup id repo.articles = some a) :
    ((UpdateArticle repo userID id title content).1 =
        Except.error ServiceError.forbidden ↔ a.userID ≠ userID) ∧
    ((DeleteArticle repo userID id).1 =
        Except.error ServiceError.forbidden ↔ a.userID ≠ userID) ∧
    (a.userID ≠ userID →
      (UpdateArticle repo userID id title content).1 ≠ Except.error ServiceError.notFound ∧
      (DeleteArticle repo userID id).1 ≠ Except.error ServiceError.notFound) ∧
    (a.userID = userID → (DeleteArticle repo userID id).1 = Except.ok ()) := by
  refine ⟨?_, ?_, ?_, DeleteArticle_ok_of_owner repo userID id a hlk⟩
  · constructor
    · intro hres
      by_contra h
      exact UpdateArticle_not_forbidden_of_owner repo userID id title content a hlk h hres
    · intro h
      exact congrArg Prod.fst
        (update_delete_forbidden_of_mismatch repo userID id title content a hlk h).1
  · constructor
    · intro hres
      by_contra h
      rw [DeleteArticle_ok_of_owner repo userID id a hlk h] at hres
      exact Except.noConfusion hres
    · intro h
      exact congrArg Prod.fst
        (update_delete_forbidden_of_mismatch repo userID id title content a hlk h).2
  · intro h
    constructor
    · rw [congrArg Prod.fst
        (update_delete_forbidden_of_mismatch repo userID id title content a hlk h).1]
      intro hc
      injection hc with he
      exact ServiceError.noConfusion he
    · rw [congrArg Prod.fst
        (update_delete_forbidden_of_mismatch repo userID id title content a hlk h).2]
      intro hc
      injection hc with he
      exact ServiceError.noConfusion he

/-- **C1 witness.** A stored article owned by principal 5: principal 6's
update is rejected with `ErrForbidden`, principal 5's delete succeeds. -/
theorem ownership_check_witness :
    (UpdateArticle ⟨[(1, ⟨1, "T", "C", 5, 0, 0⟩)], 2⟩ 6 1 (some "X") none).1 =
      Except.error ServiceError.forbidden ∧
    (DeleteArticle ⟨[(1, ⟨1, "T", "C", 5, 0, 0⟩)], 2⟩ 5 1).1 = Except.ok () := by
  have h := ownership_check ⟨[(1, ⟨1, "T", "C", 5, 0, 0⟩)], 2⟩ 6 1 (some "X") none
    ⟨1, "T", "C", 5, 0, 0⟩ rfl
  have h2 := ownership_check ⟨[(1, ⟨1, "T", "C", 5, 0, 0⟩)], 2⟩ 5 1 (some "X") none
    ⟨1, "T", "C", 5, 0, 0⟩ rfl
  exact ⟨h.1.mpr (by decide), h2.2.2.2 rfl⟩

/-- Every run of `UpdateArticle` either changes nothing and issues no
write, or its result is an internal error or a success. -/
theorem UpdateArticle_frame (repo : MockRepository) (userID id : Nat)
    (title content : Option String) :
    ((UpdateArticle repo userID id title content).2.1 = repo ∧
     (UpdateArticle repo userID id title content).2.2 = []) ∨
    (∃ msg, (UpdateArticle repo userID id title content).1 =
        Except.error (ServiceError.internal msg)) ∨
    (∃ art, (UpdateArticle repo userID id title content).1 = Except.ok art) := by
  simp only [UpdateArticle]
  cases hg : repo.getByID id with
  | error e => simp
  | ok a =>
    by_cases h : a.userID ≠ userID
    · simp [h]
    · simp only [if_neg h]
      rcases title with _ | t
      · rcases content with _ | c
        · simp [Updates.size]
        · by_cases hc : c = ""
          · simp [hc]
          · simp only [if_neg hc, Updates.size]
            norm_num
            split
            · right; left; exact ⟨_, rfl⟩
            · right; right; exact ⟨_, rfl⟩
      · by_cases ht : t = ""
        · simp [ht]
        · by_cases htl : t.utf8ByteSize > MaxTitleLength
          · simp [ht, htl]
          · rcases content with _ | c
            · simp only [if_neg ht, if_neg htl, Updates.size]
              norm_num
              split
              · right; left; exact ⟨_, rfl⟩
              · right; right; exact ⟨_, rfl⟩
            · by_cases hc : c = ""
              · simp [ht, htl, hc]
              · simp only [if_neg ht, if_neg htl, if_neg hc, Updates.size]
                norm_num
                split
                · right; left; exact ⟨_, rfl⟩
                · right; right; exact ⟨_, rfl⟩

/-- Every run of `DeleteArticle` either changes nothing and issues no
write, or its result is an internal error or a success. -/
theorem DeleteArticle_frame (repo : MockRepository) (userID id : Nat) :
    ((DeleteArticle repo userID id).2.1 = repo ∧
     (DeleteArticle repo userID id).2.2 = []) ∨
    (∃ msg, (DeleteArticle repo userID id).1 =
        Except.error (ServiceError.internal msg)) ∨
    (DeleteArticle repo userID id).1 = Except.ok () := by
  simp only [DeleteArticle]
  cases hg : repo.getByID id with
  | error e => simp
  | ok a =>
    by_cases h : a.userID ≠ userID
    · simp [h]
    · simp only [if_neg h]
      cases hd : repo.delete id with
      | error e => simp
      | ok r => simp

/-- **C10.** Error atomicity of mutations: when `UpdateArticle` or
`DeleteArticle` returns `ErrForbidden` or a validation error (owner
mismatch, empty title or content, over-long title, empty updates map), no
repository write was issued and the repository state is unchanged. -/
theorem mutation_error_atomicity (repo : MockRepository) (userID id : Nat)
    (title content : Option String) (e : ServiceError)
    (he : e = ServiceError.forbidden ∨ ∃ msg, e = ServiceError.validation msg) :
    ((UpdateArticle repo userID id title content).1 = Except.error e →
      (UpdateArticle repo userID id title content).2.1 = repo ∧
      (UpdateArticle repo userID id title content).2.2 = []) ∧
    ((DeleteArticle repo userID id).1 = Except.error e →
      (DeleteArticle repo userID id).2.1 = repo ∧
      (DeleteArticle repo userID id).2.2 = []) := by
  constructor
  · intro hres
    rcases UpdateArticle_frame repo userID id title content with
      hframe | ⟨msg, hint⟩ | ⟨art, hok⟩
    · exact hframe
    · rw [hres] at hint
      injection hint with hh
      rcases he with he | ⟨m, he⟩ <;> subst he <;> exact ServiceError.noConfusion hh
    · rw [hres] at hok
      exact Except.noConfusion hok
  · intro hres
    rcases DeleteArticle_frame repo userID id with hframe | ⟨msg, hint⟩ | hok
    · exact hframe
    · rw [hres] at hint
      injection hint with hh
      rcases he with he | ⟨m, he⟩ <;> subst he <;> exact ServiceError.noConfusion hh
    · rw [hres] at hok
      exact Except.noConfusion hok

/-- **C10 witness.** Principal 6's forbidden update of an article owned by
principal 5, and an owner update with an empty content: in both cases the
repository is untouched and no write was issued. -/
theorem mutation_error_atomicity_witness :
    ((UpdateArticle ⟨[(1, ⟨1, "T", "C", 5, 0, 0⟩)], 2⟩ 6 1 (some "X") none).2.1 =
        ⟨[(1, ⟨1, "T", "C", 5, 0, 0⟩)], 2⟩ ∧
     (UpdateArticle ⟨[(1, ⟨1, "T", "C", 5, 0, 0⟩)], 2⟩ 6 1 (some "X") none).2.2 = []) ∧
    ((UpdateArticle ⟨[(1, ⟨1, "T", "C", 5, 0, 0⟩)], 2⟩ 5 1 (some "X") (some "")).2.1 =
        ⟨[(1, ⟨1, "T", "C", 5, 0, 0⟩)], 2⟩ ∧
     (UpdateArticle ⟨[(1, ⟨1, "T", "C", 5, 0, 0⟩)], 2⟩ 5 1 (some "X") (some "")).2.2 = []) :=
  ⟨(mutation_error_atomicity ⟨[(1, ⟨1, "T", "C", 5, 0, 0⟩)], 2⟩ 6 1 (some "X") none
      ServiceError.forbidden (Or.inl rfl)).1 rfl,
   (mutation_error_atomicity ⟨[(1, ⟨1, "T", "C", 5, 0, 0⟩)], 2⟩ 5 1 (some "X") (some "")
      (ServiceError.validation "content cannot be empty")
      (Or.inr ⟨"content cannot be empty", rfl⟩)).1 rfl⟩

end ContentService
